import Mathlib

/-
Verification development for `homebrew_notify.py`, a small tool that scans
Homebrew for outdated taps and casks, sends a desktop notification, persists
the last-reported sets to two JSON state files, and can install itself into
the user's crontab.

The Python source is shallowly embedded: each Python function becomes a Lean
definition of the same name; the effects of a run (subprocess output, file
contents, dispatched notifications) become explicit inputs and outputs.
JSON (de)serialization of string fields is modelled as lossless, so a state
file's well-formed content is a list of field records.
-/

namespace HomebrewNotify

/-- OutdatedFormuala (the namedtuple, spelled as in the source): record for an
outdated tap or cask, with structural field-wise equality. -/
structure OutdatedFormuala where
  package : String
  installed_version : String
  current_version : String
deriving DecidableEq, Repr

/-- Field record written to / read from a JSON state file; this is the
`_asdict()` image of an `OutdatedFormuala`. -/
structure FormulaDict where
  package : String
  installed_version : String
  current_version : String
deriving DecidableEq, Repr

/-- The `_asdict()` conversion used by `store_formula_list`. -/
def formula_asdict (f : OutdatedFormuala) : FormulaDict :=
  ⟨f.package, f.installed_version, f.current_version⟩

/-- The `OutdatedFormuala(**tap)` reconstruction used by `load_formula_list`. -/
def formula_of_dict (d : FormulaDict) : OutdatedFormuala :=
  ⟨d.package, d.installed_version, d.current_version⟩

/-- One entry of the `brew outdated --json=v1` payload, with the fields the
program reads: `name`, `installed_versions`, `current_version`, `pinned`. -/
structure BrewOutdatedEntry where
  name : String
  installed_versions : List String
  current_version : String
  pinned : Bool
deriving DecidableEq, Repr

/-- brew_outdated: builds one `OutdatedFormuala` per non-pinned entry, taking
`installed_versions[-1]` as the installed version.  Python raises IndexError
when `installed_versions` is empty, modelled by `none`. -/
def brew_outdated (outdated_taps : List BrewOutdatedEntry) :
    Option (List OutdatedFormuala) :=
  (outdated_taps.filter (fun tap => !tap.pinned)).mapM (fun tap =>
    (tap.installed_versions.getLast?).map (fun v =>
      { package := tap.name, installed_version := v,
        current_version := tap.current_version }))

/-- The newline character, which `.` in the Python regex does not match. -/
def newlineChar : Char := Char.ofNat 10

/-- Literal ` (` of CASK_VERSION_REGEX, between package and installed version. -/
def sepOpen : List Char := (" (").data

/-- Literal `) != ` of CASK_VERSION_REGEX, between installed and current. -/
def sepMid : List Char := (") != ").data

/-- All chars are matchable by `.` (no newline). -/
def noNl (l : List Char) : Bool := l.all (fun c => c != newlineChar)

/-- All decompositions of a list into prefix and suffix, shortest prefix
first. -/
def splitsAsc : List Char → List (List Char × List Char)
  | [] => [([], [])]
  | c :: cs => ([], c :: cs) :: (splitsAsc cs).map (fun pr => (c :: pr.1, pr.2))

/-- Inner phase of matching CASK_VERSION_REGEX at a fixed package group `p`:
over the text after ` (`, try the longest installed-version group first
(greedy `.+`), then the literal `) != `, then a maximal nonempty current
group. -/
def caskInner (p s : List Char) : Option (List Char × List Char × List Char) :=
  ((splitsAsc s).reverse).findSome? (fun qr =>
    if qr.1 ≠ [] ∧ noNl qr.1 = true ∧ sepMid.isPrefixOf qr.2 = true then
      if (qr.2.drop sepMid.length).takeWhile (fun ch => ch != newlineChar) ≠ [] then
        some (p, qr.1,
          (qr.2.drop sepMid.length).takeWhile (fun ch => ch != newlineChar))
      else none
    else none)

/-- re.match of CASK_VERSION_REGEX
`(?P<package>.+) \((?P<installed_version>.+)\) != (?P<current_version>.+)`
against a line: the greedy engine tries the longest newline-free package
group first, backtracking over the ` (` positions, then matches the rest via
`caskInner`.  Returns the three captured groups. -/
def caskRegexMatch (line : List Char) :
    Option (List Char × List Char × List Char) :=
  ((splitsAsc line).reverse).findSome? (fun pr =>
    if pr.1 ≠ [] ∧ noNl pr.1 = true ∧ sepOpen.isPrefixOf pr.2 = true then
      caskInner pr.1 (pr.2.drop sepOpen.length)
    else none)

/-- brew_cask_outdated: one record per line of `brew cask outdated --verbose`
output matching CASK_VERSION_REGEX; non-matching lines are skipped.  The
argument is the output already split into lines (`splitlines()`). -/
def brew_cask_outdated (lines : List String) : List OutdatedFormuala :=
  lines.filterMap (fun line =>
    (caskRegexMatch line.data).map (fun g =>
      { package := ⟨g.1⟩, installed_version := ⟨g.2.1⟩,
        current_version := ⟨g.2.2⟩ }))

/-- store_formula_list: the JSON array of `_asdict()` records written to the
file (the file is overwritten). -/
def store_formula_list (formula_list : List OutdatedFormuala) : List FormulaDict :=
  formula_list.map formula_asdict

/-- Result of `load_formula_list`: Python returns the empty dict `{}` when the
file is absent (FileNotFoundError), and a list of records otherwise.  The two
are distinct values: under Python `==`, `{}` compares unequal to every list. -/
inductive LoadResult where
  | emptyDict : LoadResult
  | loaded : List OutdatedFormuala → LoadResult
deriving DecidableEq, Repr

/-- load_formula_list: `{}` when the file does not exist, otherwise the parsed
list `[OutdatedFormuala(**tap) for tap in json.load(json_file)]`. -/
def load_formula_list : Option (List FormulaDict) → LoadResult
  | none => LoadResult.emptyDict
  | some content => LoadResult.loaded (content.map formula_of_dict)

/-- Python `==` between a scanned list and a value returned by
`load_formula_list`: a list never equals the dict `{}`; two lists compare
element-wise in order. -/
def pyListEqLoad (l : List OutdatedFormuala) : LoadResult → Bool
  | LoadResult.emptyDict => false
  | LoadResult.loaded m => decide (l = m)

/-- get_notification_string: `None` for zero items, else `"N name"` with a
plural `s` appended when N > 1. -/
def get_notification_string (num_items : Nat) (item_name : String) :
    Option String :=
  if num_items < 1 then none
  else some (toString num_items ++ " " ++ item_name ++
    (if num_items > 1 then "s" else ""))

/-- Code-point comparison of char lists, as Python compares strings. -/
def charListLe : List Char → List Char → Bool
  | [], _ => true
  | _ :: _, [] => false
  | a :: as, b :: bs =>
    if a.toNat < b.toNat then true
    else if b.toNat < a.toNat then false
    else charListLe as bs

/-- Lexicographic code-point order on strings (Python string `<=`). -/
def strLeB (a b : String) : Bool := charListLe a.data b.data

/-- Insert into a sorted list of strings. -/
def insertSorted (s : String) : List String → List String
  | [] => [s]
  | x :: xs => if strLeB s x then s :: x :: xs else x :: insertSorted s xs

/-- Python `sorted` on a list of strings.  The order is total and
antisymmetric, so the sorted list is the unique ascending rearrangement and
any correct sort computes it. -/
def sortStrings : List String → List String
  | [] => []
  | x :: xs => insertSorted x (sortStrings xs)

/-- One call to `notify`: the text plus optional title and subtitle passed to
the osascript notification. -/
structure Notification where
  text : String
  title : Option String
  subtitle : Option String
deriving DecidableEq, Repr

/-- notify_taps_and_casks: `none` when nothing is dispatched.  With both lists
empty it sends the fixed no-updates notification only in always-notify mode;
otherwise it builds the counts subtitle and the sorted space-joined body. -/
def notify_taps_and_casks (taps casks : List OutdatedFormuala)
    (always_notify : Bool) : Option Notification :=
  if (taps ++ casks).isEmpty then
    if always_notify then
      some { text := "", title := some "No tap or cask updates available",
             subtitle := none }
    else none
  else
    let tap_text := get_notification_string taps.length "tap"
    let cask_text := get_notification_string casks.length "cask"
    let formulae_text := String.intercalate " and "
      ([tap_text, cask_text].filterMap id)
    some { text := String.intercalate " "
             (sortStrings ((taps ++ casks).map (fun x => x.package))),
           title := some "Homebrew Updates Available",
           subtitle := some ("There are updates to " ++ formulae_text) }

/-- Contents of the two persisted state files; `none` means the file does not
exist. -/
structure StateFiles where
  taps_file : Option (List FormulaDict)
  casks_file : Option (List FormulaDict)
deriving DecidableEq, Repr

/-- notify_outdated_formula, after the scan: given the scanned lists, the
state files and the mode, returns the dispatched notification (if any) and
the state files after the run.  In notify-once mode the scan is compared with
the loaded prior state by Python `!=`, and both files are rewritten with the
new scan whenever the notify branch is taken. -/
def notify_outdated_formula (outdated_taps outdated_casks : List OutdatedFormuala)
    (st : StateFiles) (always_notify : Bool) : Option Notification × StateFiles :=
  let need_to_notify :=
    if always_notify then true
    else
      let reported_taps := load_formula_list st.taps_file
      let reported_casks := load_formula_list st.casks_file
      !(pyListEqLoad outdated_taps reported_taps &&
        pyListEqLoad outdated_casks reported_casks)
  if need_to_notify then
    let n := notify_taps_and_casks outdated_taps outdated_casks always_notify
    if always_notify then (n, st)
    else (n, { taps_file := some (store_formula_list outdated_taps),
               casks_file := some (store_formula_list outdated_casks) })
  else (none, st)

/-- Substring containment, Python's `pattern in line`. -/
def hasSubList (pat : List Char) : List Char → Bool
  | [] => pat.isEmpty
  | c :: cs => pat.isPrefixOf (c :: cs) || hasSubList pat cs

/-- Python `pattern in line` on strings. -/
def strContains (line pattern : String) : Bool :=
  hasSubList pattern.data line.data

/-- remove_pattern_from_crontab: drop every line containing the pattern;
also report whether anything was dropped. -/
def remove_pattern_from_crontab (crontab : List String) (pattern : String) :
    Bool × List String :=
  let new_crontab := crontab.filter (fun line => !(strContains line pattern))
  (decide (crontab.length ≠ new_crontab.length), new_crontab)

/-- SCRIPT_INSTALL_LOCATION = Path.home() / ".homebrew_notify" /
"homebrew_notify.py", as a string, parameterized by the home directory. -/
def SCRIPT_INSTALL_LOCATION (home : String) : String :=
  home ++ "/.homebrew_notify/homebrew_notify.py"

/-- remove_self_from_crontab: drop lines containing the install path. -/
def remove_self_from_crontab (home : String) (crontab : List String) :
    Bool × List String :=
  remove_pattern_from_crontab crontab (SCRIPT_INSTALL_LOCATION home)

/-- remove_homebrew_notifier_from_crontab: drop lines of the legacy Ruby
tool. -/
def remove_homebrew_notifier_from_crontab (crontab : List String) :
    Bool × List String :=
  remove_pattern_from_crontab crontab ".homebrew-notifier/notifier.sh"

/-- The crontab line appended by install. -/
def install_cron_line (home : String) : String :=
  "*/30 * * * * PATH=/usr/local/bin:$PATH " ++ SCRIPT_INSTALL_LOCATION home ++
    " --notify-once"

/-- setup_crontab (the crontab phase of install): remove any line referencing
the install path, then any legacy Ruby notifier line, then append the new
schedule line. -/
def setup_crontab (home : String) (crontab : List String) : List String :=
  let r1 := remove_self_from_crontab home crontab
  let r2 := remove_homebrew_notifier_from_crontab r1.2
  r2.2 ++ [install_cron_line home]

/-! ### Helper lemmas -/

/-- Converting a record to its dict and back is the identity. -/
theorem formula_of_dict_asdict (f : OutdatedFormuala) :
    formula_of_dict (formula_asdict f) = f := rfl

/-- Loading a file just written by store yields back the stored list. -/
theorem load_store (l : List OutdatedFormuala) :
    load_formula_list (some (store_formula_list l)) = LoadResult.loaded l := by
  have hid : formula_of_dict ∘ formula_asdict = id := rfl
  simp [load_formula_list, store_formula_list, List.map_map, hid]

/-- The Python `==` test against a loaded value holds exactly when the load
produced that very list. -/
theorem pyListEqLoad_eq_true (l : List OutdatedFormuala) (r : LoadResult) :
    pyListEqLoad l r = true ↔ r = LoadResult.loaded l := by
  cases r with
  | emptyDict => simp [pyListEqLoad]
  | loaded m =>
    simp only [pyListEqLoad, decide_eq_true_eq, LoadResult.loaded.injEq]
    exact eq_comm

/-- In notify-once mode nothing is dispatched exactly when both lists are
empty. -/
theorem notify_taps_and_casks_false_eq_none_iff (taps casks : List OutdatedFormuala) :
    notify_taps_and_casks taps casks false = none ↔ taps ++ casks = [] := by
  rw [notify_taps_and_casks]
  by_cases h : (taps ++ casks).isEmpty
  · rw [if_pos h]
    simp [List.isEmpty_iff.mp h]
  · have hne : taps ++ casks ≠ [] := fun hn => h (by simp [hn])
    rw [if_neg h]
    simp [hne]

/-- Closed form of a notify-once run: compare by equality with the loaded
prior state; on difference dispatch the (possibly empty-suppressed)
notification and overwrite both files. -/
theorem notify_once_run (taps casks : List OutdatedFormuala) (st : StateFiles) :
    notify_outdated_formula taps casks st false =
      if load_formula_list st.taps_file = LoadResult.loaded taps ∧
         load_formula_list st.casks_file = LoadResult.loaded casks
      then (none, st)
      else (notify_taps_and_casks taps casks false,
            { taps_file := some (store_formula_list taps),
              casks_file := some (store_formula_list casks) }) := by
  by_cases h : load_formula_list st.taps_file = LoadResult.loaded taps ∧
      load_formula_list st.casks_file = LoadResult.loaded casks
  · simp [notify_outdated_formula, h.1, h.2, pyListEqLoad, h]
  · have hb : (pyListEqLoad taps (load_formula_list st.taps_file) &&
        pyListEqLoad casks (load_formula_list st.casks_file)) = false := by
      rcases Decidable.not_and_iff_or_not.mp h with h1 | h1
      · have : pyListEqLoad taps (load_formula_list st.taps_file) = false := by
          cases hx : pyListEqLoad taps (load_formula_list st.taps_file)
          · rfl
          · exact absurd ((pyListEqLoad_eq_true _ _).mp hx) h1
        simp [this]
      · have : pyListEqLoad casks (load_formula_list st.casks_file) = false := by
          cases hx : pyListEqLoad casks (load_formula_list st.casks_file)
          · rfl
          · exact absurd ((pyListEqLoad_eq_true _ _).mp hx) h1
        simp [this]
    simp [notify_outdated_formula, hb, h]

/-- Membership in splitsAsc is exactly being a decomposition of the list. -/
theorem mem_splitsAsc : ∀ (l p s : List Char), (p, s) ∈ splitsAsc l ↔ l = p ++ s := by
  intro l
  induction l with
  | nil =>
    intro p s
    simp only [splitsAsc, List.mem_singleton, Prod.mk.injEq]
    constructor
    · rintro ⟨hp, hs⟩
      simp [hp, hs]
    · intro h
      cases p with
      | nil => exact ⟨rfl, by simpa using h.symm⟩
      | cons a as => simp at h
  | cons c cs ih =>
    intro p s
    simp only [splitsAsc, List.mem_cons, List.mem_map, Prod.mk.injEq]
    constructor
    · rintro (⟨hp, hs⟩ | ⟨⟨a, b⟩, hmem, ha, hb⟩)
      · simp [hp, hs]
      · have hcs := (ih a b).mp hmem
        rw [← ha, ← hb, hcs]
        rfl
    · intro h
      cases p with
      | nil =>
        left
        exact ⟨rfl, by simpa using h.symm⟩
      | cons p0 ps =>
        right
        rw [List.cons_append] at h
        have h1 : c = p0 := (List.cons.inj h).1
        have h2 : cs = ps ++ s := (List.cons.inj h).2
        exact ⟨(ps, s), (ih ps s).mpr h2, by rw [h1], rfl⟩

/-- Every decomposition of a list appears in its splitsAsc. -/
theorem splitsAsc_self_mem (p s : List Char) : (p, s) ∈ splitsAsc (p ++ s) :=
  (mem_splitsAsc (p ++ s) p s).mpr rfl

/-- takeWhile keeps a list all of whose elements satisfy the predicate. -/
theorem takeWhile_eq_self_of_all (p : Char → Bool) :
    ∀ l : List Char, (∀ x ∈ l, p x = true) → l.takeWhile p = l
  | [], _ => rfl
  | x :: xs, h => by
    rw [List.takeWhile_cons, if_pos (h x (List.mem_cons_self x xs))]
    rw [takeWhile_eq_self_of_all p xs (fun y hy => h y (List.mem_cons_of_mem _ hy))]

/-- A pattern occurs as a substring of any list that embeds it between a
prefix and a suffix. -/
theorem hasSubList_of_append (pat pre suf : List Char) :
    hasSubList pat ((pre ++ pat) ++ suf) = true := by
  induction pre with
  | nil =>
    simp only [List.nil_append]
    cases pat with
    | nil =>
      cases suf with
      | nil => rfl
      | cons c cs => simp [hasSubList, List.isPrefixOf]
    | cons a as =>
      rw [List.cons_append]
      have hpre : (a :: as).isPrefixOf (a :: (as ++ suf)) = true := by
        rw [List.isPrefixOf_iff_prefix]
        exact ⟨suf, by simp⟩
      simp [hasSubList, hpre]
  | cons c pre ih =>
    rw [List.cons_append, List.cons_append]
    simp only [hasSubList, Bool.or_eq_true, List.isPrefixOf_iff_prefix]
    exact Or.inr ih

/-- The appended crontab line references the script's install path. -/
theorem strContains_install_line (home : String) :
    strContains (install_cron_line home) (SCRIPT_INSTALL_LOCATION home) = true := by
  have hd : (install_cron_line home).data =
      (("*/30 * * * * PATH=/usr/local/bin:$PATH ").data ++
        (SCRIPT_INSTALL_LOCATION home).data) ++ (" --notify-once").data := by
    simp [install_cron_line]
  rw [strContains, hd]
  exact hasSubList_of_append _ _ _

/-- setup_crontab unfolded: two filters then the appended line. -/
theorem setup_crontab_eq (home : String) (c : List String) :
    setup_crontab home c =
      ((c.filter (fun line =>
          !(strContains line (SCRIPT_INSTALL_LOCATION home)))).filter
        (fun line => !(strContains line ".homebrew-notifier/notifier.sh"))) ++
      [install_cron_line home] := rfl

/-- After setup_crontab, exactly one line references the install path. -/
theorem setup_crontab_filter_count (home : String) (crontab : List String) :
    ((setup_crontab home crontab).filter
      (fun line => strContains line (SCRIPT_INSTALL_LOCATION home))).length = 1 := by
  rw [setup_crontab_eq, List.filter_append]
  have hA : ∀ line ∈ (crontab.filter (fun line =>
      !(strContains line (SCRIPT_INSTALL_LOCATION home)))).filter
        (fun line => !(strContains line ".homebrew-notifier/notifier.sh")),
      strContains line (SCRIPT_INSTALL_LOCATION home) = false := by
    intro line hl
    have h1 := (List.mem_filter.mp ((List.mem_filter.mp hl).1)).2
    simpa using h1
  have h1 : ((crontab.filter (fun line =>
      !(strContains line (SCRIPT_INSTALL_LOCATION home)))).filter
        (fun line => !(strContains line ".homebrew-notifier/notifier.sh"))).filter
      (fun line => strContains line (SCRIPT_INSTALL_LOCATION home)) = [] := by
    refine List.filter_eq_nil_iff.mpr ?_
    intro a ha
    simp [hA a ha]
  have h2 : [install_cron_line home].filter
      (fun line => strContains line (SCRIPT_INSTALL_LOCATION home)) =
      [install_cron_line home] := by
    simp [List.filter_cons, strContains_install_line home]
  rw [h1, h2]
  rfl

/-- Running setup_crontab twice equals running it once: the second run first
removes the very line the first run appended, then appends it again. -/
theorem setup_crontab_idem (home : String) (crontab : List String) :
    setup_crontab home (setup_crontab home crontab) = setup_crontab home crontab := by
  rw [setup_crontab_eq home (setup_crontab home crontab),
    setup_crontab_eq home crontab, List.filter_append, List.filter_append]
  have hq1A : (crontab.filter (fun line =>
      !(strContains line (SCRIPT_INSTALL_LOCATION home)))).filter
        (fun line => !(strContains line ".homebrew-notifier/notifier.sh")) =
      ((crontab.filter (fun line =>
        !(strContains line (SCRIPT_INSTALL_LOCATION home)))).filter
          (fun line => !(strContains line ".homebrew-notifier/notifier.sh"))).filter
        (fun line => !(strContains line (SCRIPT_INSTALL_LOCATION home))) := by
    refine (List.filter_eq_self.mpr ?_).symm
    intro a ha
    exact (List.mem_filter.mp ((List.mem_filter.mp ha).1)).2
  have hq1new : [install_cron_line home].filter (fun line =>
      !(strContains line (SCRIPT_INSTALL_LOCATION home))) = [] := by
    simp [List.filter_cons, strContains_install_line home]
  have hq2A : ∀ l : List String, (l.filter
      (fun line => !(strContains line ".homebrew-notifier/notifier.sh"))).filter
        (fun line => !(strContains line ".homebrew-notifier/notifier.sh")) =
      l.filter (fun line => !(strContains line ".homebrew-notifier/notifier.sh")) := by
    intro l
    refine List.filter_eq_self.mpr ?_
    intro a ha
    exact (List.mem_filter.mp ha).2
  rw [← hq1A, hq1new]
  simp only [List.filter_nil, List.append_nil]
  rw [hq2A]

/-- Soundness of the inner matching phase: a successful result decomposes the
text after ` (` into a nonempty installed group, the literal `) != `, and a
remainder whose maximal newline-free prefix is the nonempty current group. -/
theorem caskInner_sound (p s : List Char) (r : List Char × List Char × List Char)
    (h : caskInner p s = some r) :
    ∃ i u, s = (i ++ sepMid) ++ u ∧ i ≠ [] ∧
      r = (p, i, u.takeWhile (fun ch => ch != newlineChar)) ∧
      u.takeWhile (fun ch => ch != newlineChar) ≠ [] := by
  obtain ⟨qr, hmem, hqr⟩ := List.exists_of_findSome?_eq_some h
  rw [List.mem_reverse] at hmem
  have hs : s = qr.1 ++ qr.2 := (mem_splitsAsc s qr.1 qr.2).mp hmem
  by_cases hc : qr.1 ≠ [] ∧ noNl qr.1 = true ∧ sepMid.isPrefixOf qr.2 = true
  · rw [if_pos hc] at hqr
    obtain ⟨u, hu⟩ : ∃ u, qr.2 = sepMid ++ u := by
      obtain ⟨t, ht⟩ := (List.isPrefixOf_iff_prefix).mp hc.2.2
      exact ⟨t, ht.symm⟩
    rw [hu, List.drop_left] at hqr
    by_cases hce : (u.takeWhile (fun ch => ch != newlineChar)) ≠ []
    · rw [if_pos hce] at hqr
      refine ⟨qr.1, u, ?_, hc.1, ?_, hce⟩
      · rw [hs, hu, List.append_assoc]
      · exact (Option.some.inj hqr).symm
    · rw [if_neg hce] at hqr
      exact absurd hqr (by simp)
  · rw [if_neg hc] at hqr
    exact absurd hqr (by simp)

/-- Soundness of the regex match: a successful match decomposes the line into
a nonempty package group, ` (`, a nonempty installed group, `) != `, and a
remainder whose maximal newline-free prefix is the nonempty current group. -/
theorem caskRegexMatch_sound (line : List Char)
    (r : List Char × List Char × List Char) (h : caskRegexMatch line = some r) :
    ∃ p i u, line = p ++ (sepOpen ++ ((i ++ sepMid) ++ u)) ∧ p ≠ [] ∧ i ≠ [] ∧
      r = (p, i, u.takeWhile (fun ch => ch != newlineChar)) ∧
      u.takeWhile (fun ch => ch != newlineChar) ≠ [] := by
  obtain ⟨pr, hmem, hpr⟩ := List.exists_of_findSome?_eq_some h
  rw [List.mem_reverse] at hmem
  have hl : line = pr.1 ++ pr.2 := (mem_splitsAsc line pr.1 pr.2).mp hmem
  by_cases hc : pr.1 ≠ [] ∧ noNl pr.1 = true ∧ sepOpen.isPrefixOf pr.2 = true
  · rw [if_pos hc] at hpr
    obtain ⟨t, ht⟩ : ∃ t, pr.2 = sepOpen ++ t := by
      obtain ⟨t, ht⟩ := (List.isPrefixOf_iff_prefix).mp hc.2.2
      exact ⟨t, ht.symm⟩
    rw [ht, List.drop_left] at hpr
    obtain ⟨i, u, hts, hi, hr, hne⟩ := caskInner_sound pr.1 t r hpr
    exact ⟨pr.1, i, u, by rw [hl, ht, hts], hc.1, hi, hr, hne⟩
  · rw [if_neg hc] at hpr
    exact absurd hpr (by simp)

/-- Completeness of the inner matching phase at a well-formed remainder. -/
theorem caskInner_complete (p i c : List Char) (hi : i ≠ []) (hc : c ≠ [])
    (hni : noNl i = true) (hnc : noNl c = true) :
    (caskInner p ((i ++ sepMid) ++ c)).isSome = true := by
  rw [caskInner]
  refine List.findSome?_isSome_iff.mpr ⟨(i, sepMid ++ c), ?_, ?_⟩
  · rw [List.mem_reverse, List.append_assoc]
    exact splitsAsc_self_mem i (sepMid ++ c)
  · rw [if_pos ⟨hi, hni, (List.isPrefixOf_iff_prefix).mpr (List.prefix_append _ _)⟩]
    rw [List.drop_left,
      takeWhile_eq_self_of_all _ c (List.all_eq_true.mp hnc), if_pos hc]
    rfl

/-- Completeness of the regex match: every line admitting a newline-free
nonempty decomposition `package ( installed ) != current` matches. -/
theorem caskRegexMatch_complete (p i c : List Char) (hp : p ≠ []) (hi : i ≠ [])
    (hc : c ≠ []) (hnp : noNl p = true) (hni : noNl i = true)
    (hnc : noNl c = true) :
    (caskRegexMatch (p ++ sepOpen ++ i ++ sepMid ++ c)).isSome = true := by
  have hline : p ++ sepOpen ++ i ++ sepMid ++ c =
      p ++ (sepOpen ++ ((i ++ sepMid) ++ c)) := by
    simp [List.append_assoc]
  rw [hline, caskRegexMatch]
  refine List.findSome?_isSome_iff.mpr
    ⟨(p, sepOpen ++ ((i ++ sepMid) ++ c)), ?_, ?_⟩
  · rw [List.mem_reverse]
    exact splitsAsc_self_mem p (sepOpen ++ ((i ++ sepMid) ++ c))
  · rw [if_pos ⟨hp, hnp, (List.isPrefixOf_iff_prefix).mpr (List.prefix_append _ _)⟩]
    rw [List.drop_left]
    exact caskInner_complete p i c hi hc hni hnc

/-! ### Claim theorems -/

/-- Claim C5: for every list of OutdatedItem records, save followed by load
returns the original list itself, hence a list structurally equal to the
original (field-wise equal records, and in particular equal as unordered
collections). -/
theorem claim_store_load_round_trip (items : List OutdatedFormuala) :
    load_formula_list (some (store_formula_list items)) =
      LoadResult.loaded items := load_store items

/-- Witness for C5 at a concrete list. -/
theorem claim_store_load_round_trip_witness :
    load_formula_list (some (store_formula_list
        [{ package := "a", installed_version := "1", current_version := "2" }])) =
      LoadResult.loaded
        [{ package := "a", installed_version := "1", current_version := "2" }] :=
  claim_store_load_round_trip
    [{ package := "a", installed_version := "1", current_version := "2" }]

/-- Claim C6, counterexample: load on a missing file does not return the
empty list of OutdatedItem; it returns the empty dict, a value the program's
Python equality distinguishes from the empty list. -/
theorem claim_load_missing_cex :
    load_formula_list none ≠ LoadResult.loaded ([] : List OutdatedFormuala) ∧
    load_formula_list none = LoadResult.emptyDict ∧
    pyListEqLoad [] (load_formula_list none) = false := by
  refine ⟨?_, rfl, rfl⟩
  intro h
  exact LoadResult.noConfusion h

/-- Claim C6, amended: load on a file that does not exist returns the empty
dict rather than raising an error — an empty collection that compares unequal
(under the program's Python equality) to every list, including the empty
list; on an existing file it parses the JSON array of objects into
OutdatedItem records. -/
theorem claim_load_missing_behavior :
    load_formula_list none = LoadResult.emptyDict ∧
    (∀ l : List OutdatedFormuala,
      pyListEqLoad l (load_formula_list none) = false) ∧
    (∀ content : List FormulaDict,
      load_formula_list (some content) =
        LoadResult.loaded (content.map formula_of_dict)) :=
  ⟨rfl, fun _ => rfl, fun _ => rfl⟩

/-- Claim C7: with both lists empty, always-notify mode sends exactly the
fixed no-updates notification, notify-once mode sends nothing, and in neither
mode is the regular updates notification (titled for available updates)
built. -/
theorem claim_empty_lists_notification :
    notify_taps_and_casks [] [] true =
      some { text := "", title := some "No tap or cask updates available",
             subtitle := none } ∧
    notify_taps_and_casks [] [] false = none ∧
    (∀ b : Bool, (notify_taps_and_casks [] [] b).bind Notification.title ≠
      some "Homebrew Updates Available") := by
  refine ⟨rfl, rfl, ?_⟩
  intro b
  cases b <;> simp [notify_taps_and_casks]

/-- Claim C8: for taps `a`, `b` and cask `c`, the notification has subtitle
"There are updates to 2 taps and 1 cask" and body "a b c", in either mode. -/
theorem claim_two_taps_one_cask (b : Bool) :
    notify_taps_and_casks
        [{ package := "a", installed_version := "1", current_version := "2" },
         { package := "b", installed_version := "1", current_version := "2" }]
        [{ package := "c", installed_version := "1", current_version := "2" }] b =
      some { text := "a b c", title := some "Homebrew Updates Available",
             subtitle := some "There are updates to 2 taps and 1 cask" } := by
  cases b <;> rfl

/-- Witness for C8 in always-notify mode. -/
theorem claim_two_taps_one_cask_witness :
    notify_taps_and_casks
        [{ package := "a", installed_version := "1", current_version := "2" },
         { package := "b", installed_version := "1", current_version := "2" }]
        [{ package := "c", installed_version := "1", current_version := "2" }] true =
      some { text := "a b c", title := some "Homebrew Updates Available",
             subtitle := some "There are updates to 2 taps and 1 cask" } :=
  claim_two_taps_one_cask true

/-- Claim C10: when a state file is absent, load yields the empty dict, which
the run's Python equality distinguishes from every list; hence a first run in
notify-once mode with no prior state files always takes the notify branch and
writes both state files — even for an empty scan, in which case the files are
written but no notification is dispatched. -/
theorem claim_first_run_always_writes :
    load_formula_list none = LoadResult.emptyDict ∧
    (∀ l : List OutdatedFormuala,
      pyListEqLoad l (load_formula_list none) = false) ∧
    (∀ taps casks : List OutdatedFormuala,
      (notify_outdated_formula taps casks ⟨none, none⟩ false).2 =
        { taps_file := some (store_formula_list taps),
          casks_file := some (store_formula_list casks) }) ∧
    notify_outdated_formula [] [] ⟨none, none⟩ false =
      (none, { taps_file := some (store_formula_list []),
               casks_file := some (store_formula_list []) }) :=
  ⟨rfl, fun _ => rfl, fun _ _ => rfl, rfl⟩

/-- Claim C1, counterexample: two scanned lists holding the same records as
the persisted ones but in swapped order are treated as different, and a
notification is dispatched. -/
theorem claim_unordered_compare_cex :
    ([{ package := "a", installed_version := "1", current_version := "2" },
      { package := "b", installed_version := "1", current_version := "2" }] :
        List OutdatedFormuala).Perm
      [{ package := "b", installed_version := "1", current_version := "2" },
       { package := "a", installed_version := "1", current_version := "2" }] ∧
    (notify_outdated_formula
        [{ package := "a", installed_version := "1", current_version := "2" },
         { package := "b", installed_version := "1", current_version := "2" }] []
        { taps_file := some (store_formula_list
            [{ package := "b", installed_version := "1", current_version := "2" },
             { package := "a", installed_version := "1", current_version := "2" }]),
          casks_file := some (store_formula_list []) } false).1 ≠ none := by
  constructor
  · exact List.Perm.swap _ _ _
  · decide

/-- Claim C1, amended: in notify-once mode the freshly scanned lists are
compared against the last-persisted lists by order-sensitive list equality,
not unordered structural equality: no notification is dispatched exactly when
each scanned list is element-wise equal, in the same order, to the persisted
one, or the scan is empty; lists holding the same records in a different
order are treated as different and (for a nonempty scan) trigger a
notification. -/
theorem claim_ordered_compare (taps casks ptaps pcasks : List OutdatedFormuala) :
    (notify_outdated_formula taps casks
        { taps_file := some (store_formula_list ptaps),
          casks_file := some (store_formula_list pcasks) } false).1 = none ↔
      ((taps = ptaps ∧ casks = pcasks) ∨ taps ++ casks = []) := by
  rw [notify_once_run]
  by_cases h : taps = ptaps ∧ casks = pcasks
  · simp [load_store, h]
  · have h' : ¬(load_formula_list (some (store_formula_list ptaps)) =
        LoadResult.loaded taps ∧
        load_formula_list (some (store_formula_list pcasks)) =
        LoadResult.loaded casks) := by
      rw [load_store, load_store]
      intro hc
      exact h ⟨(LoadResult.loaded.inj hc.1).symm, (LoadResult.loaded.inj hc.2).symm⟩
    rw [if_neg h']
    simp only [notify_taps_and_casks_false_eq_none_iff]
    constructor
    · exact fun he => Or.inr he
    · rintro (hc | he)
      · exact absurd hc h
      · exact he

/-- Witness for C1's amended theorem: equal persisted state yields no
notification at a concrete input. -/
theorem claim_ordered_compare_witness :
    (notify_outdated_formula
        [{ package := "a", installed_version := "1", current_version := "2" }] []
        { taps_file := some (store_formula_list
            [{ package := "a", installed_version := "1", current_version := "2" }]),
          casks_file := some (store_formula_list []) } false).1 = none :=
  (claim_ordered_compare
      [{ package := "a", installed_version := "1", current_version := "2" }] []
      [{ package := "a", installed_version := "1", current_version := "2" }] []).mpr
    (Or.inl ⟨rfl, rfl⟩)

/-- Claim C2, counterexample: a prior state different from the current scan
(one persisted tap, empty scan) overwrites both state files but dispatches no
notification, against the claim that a notification is sent whenever the
prior state differs. -/
theorem claim_notify_once_frame_cex :
    load_formula_list (some (store_formula_list
        [{ package := "a", installed_version := "1", current_version := "2" }])) ≠
      LoadResult.loaded ([] : List OutdatedFormuala) ∧
    notify_outdated_formula [] []
        { taps_file := some (store_formula_list
            [{ package := "a", installed_version := "1", current_version := "2" }]),
          casks_file := some (store_formula_list []) } false =
      (none, { taps_file := some (store_formula_list []),
               casks_file := some (store_formula_list []) }) := by
  constructor
  · decide
  · decide

/-- Claim C2, amended: in notify-once mode, given a prior persisted state
equal to the current scan, no notification is sent and both state files are
left unchanged; given a prior state different from the current scan, both
state files are overwritten with the new scan and a notification is sent
provided the new scan is nonempty — an empty scan overwrites the files while
dispatching nothing. -/
theorem claim_notify_once_frame (taps casks : List OutdatedFormuala)
    (tf cf : Option (List FormulaDict)) :
    (load_formula_list tf = LoadResult.loaded taps ∧
       load_formula_list cf = LoadResult.loaded casks →
      notify_outdated_formula taps casks ⟨tf, cf⟩ false = (none, ⟨tf, cf⟩)) ∧
    (¬(load_formula_list tf = LoadResult.loaded taps ∧
       load_formula_list cf = LoadResult.loaded casks) →
      (notify_outdated_formula taps casks ⟨tf, cf⟩ false).2 =
        { taps_file := some (store_formula_list taps),
          casks_file := some (store_formula_list casks) } ∧
      (taps ++ casks ≠ [] →
        (notify_outdated_formula taps casks ⟨tf, cf⟩ false).1 ≠ none) ∧
      (taps ++ casks = [] →
        (notify_outdated_formula taps casks ⟨tf, cf⟩ false).1 = none)) := by
  constructor
  · intro h
    rw [notify_once_run]
    exact if_pos h
  · intro h
    rw [notify_once_run, if_neg h]
    refine ⟨rfl, ?_, ?_⟩
    · intro hne hcontra
      exact hne ((notify_taps_and_casks_false_eq_none_iff taps casks).mp hcontra)
    · intro he
      exact (notify_taps_and_casks_false_eq_none_iff taps casks).mpr he

/-- Witness for C2's amended theorem: both branches exercised at concrete
inputs. -/
theorem claim_notify_once_frame_witness :
    notify_outdated_formula
        [{ package := "a", installed_version := "1", current_version := "2" }] []
        ⟨some (store_formula_list
            [{ package := "a", installed_version := "1", current_version := "2" }]),
          some (store_formula_list [])⟩ false =
      (none, ⟨some (store_formula_list
          [{ package := "a", installed_version := "1", current_version := "2" }]),
        some (store_formula_list [])⟩) ∧
    (notify_outdated_formula
        [{ package := "b", installed_version := "1", current_version := "2" }] []
        ⟨none, none⟩ false).1 ≠ none := by
  constructor
  · exact (claim_notify_once_frame
        [{ package := "a", installed_version := "1", current_version := "2" }] []
        (some (store_formula_list
          [{ package := "a", installed_version := "1", current_version := "2" }]))
        (some (store_formula_list []))).1 ⟨load_store _, load_store _⟩
  · exact ((claim_notify_once_frame
        [{ package := "b", installed_version := "1", current_version := "2" }] []
        none none).2 (by simp [load_formula_list])).2.1 (by simp)

/-- Claim C9: for every starting crontab (and any home directory), after
install the crontab contains exactly one line referencing the script's
install path, and re-running install removes the prior entry before appending
the new one, leaving the crontab unchanged — replace, not duplicate or
reject. -/
theorem claim_install_replaces (home : String) (crontab : List String) :
    ((setup_crontab home crontab).filter
      (fun line => strContains line (SCRIPT_INSTALL_LOCATION home))).length = 1 ∧
    setup_crontab home (setup_crontab home crontab) = setup_crontab home crontab :=
  ⟨setup_crontab_filter_count home crontab, setup_crontab_idem home crontab⟩

/-- Witness for C9 at a concrete crontab holding a stale entry and an
unrelated line. -/
theorem claim_install_replaces_witness :
    ((setup_crontab "/Users/u"
        ["0 0 * * * backup", "1 1 * * * /Users/u/.homebrew_notify/homebrew_notify.py"]).filter
      (fun line => strContains line (SCRIPT_INSTALL_LOCATION "/Users/u"))).length = 1 ∧
    setup_crontab "/Users/u" (setup_crontab "/Users/u"
        ["0 0 * * * backup", "1 1 * * * /Users/u/.homebrew_notify/homebrew_notify.py"]) =
      setup_crontab "/Users/u"
        ["0 0 * * * backup", "1 1 * * * /Users/u/.homebrew_notify/homebrew_notify.py"] :=
  claim_install_replaces "/Users/u"
    ["0 0 * * * backup", "1 1 * * * /Users/u/.homebrew_notify/homebrew_notify.py"]

/-- Claim C3: parsing the JSON outdated payload yields exactly one record per
non-pinned entry (pinned entries excluded), with the installed version taken
as the last element of the entry's installed_versions list and the current
version from its current_version field.  The hypothesis reflects that Python
would raise an IndexError on a non-pinned entry with no installed versions. -/
theorem claim_brew_outdated_parse (entries : List BrewOutdatedEntry)
    (h : ∀ e ∈ entries, e.pinned = false → e.installed_versions ≠ []) :
    brew_outdated entries = some ((entries.filter (fun e => !e.pinned)).map
      (fun e => { package := e.name,
                  installed_version := e.installed_versions.getLastD "",
                  current_version := e.current_version })) := by
  induction entries with
  | nil => rfl
  | cons e es ih =>
    have hes : ∀ x ∈ es, x.pinned = false → x.installed_versions ≠ [] :=
      fun x hx => h x (List.mem_cons_of_mem _ hx)
    have ihes := ih hes
    by_cases hp : e.pinned
    · simp only [brew_outdated, List.filter_cons, hp] at ihes ⊢
      simpa using ihes
    · have hpf : e.pinned = false := Bool.not_eq_true _ ▸ hp
      have hne := h e (List.mem_cons_self e es) hpf
      obtain ⟨v, hv⟩ :=
        Option.isSome_iff_exists.mp (List.getLast?_isSome.mpr hne)
      simp only [brew_outdated] at ihes ⊢
      rw [List.filter_cons_of_pos (by simp [hpf]), List.mapM_cons]
      simp only [hv, Option.map_some', ihes, List.map_cons,
        List.getLastD_eq_getLast?, Option.getD_some]
      rfl

/-- Witness for C3: one non-pinned entry with two installed versions and one
pinned entry. -/
theorem claim_brew_outdated_parse_witness :
    brew_outdated
        [{ name := "x", installed_versions := ["1", "2"], current_version := "3",
           pinned := false },
         { name := "y", installed_versions := ["9"], current_version := "10",
           pinned := true }] =
      some [{ package := "x", installed_version := "2", current_version := "3" }] := by
  have h := claim_brew_outdated_parse
    [{ name := "x", installed_versions := ["1", "2"], current_version := "3",
       pinned := false },
     { name := "y", installed_versions := ["9"], current_version := "10",
       pinned := true }] (by decide)
  simpa using h

/-- Claim C4, counterexample: the line `a (b) != c (d) != e` is an instance of
the pattern `<package> (<installed>) != <current>` with package `a`, installed
`b` and current `c (d) != e`, yet parsing does not yield that record (the
greedy regex yields package `a (b) != c`, installed `d`, current `e`
instead). -/
theorem claim_cask_line_parse_cex :
    ("a (b) != c (d) != e").data =
      ("a").data ++ sepOpen ++ ("b").data ++ sepMid ++ ("c (d) != e").data ∧
    caskRegexMatch (("a (b) != c (d) != e").data) ≠
      some ((("a").data, ("b").data, ("c (d) != e").data)) := by
  constructor
  · decide
  · decide

/-- Claim C4, amended: for the example line `foo (1.0) != 2.0` parsing yields
exactly the record with package `foo`, installed `1.0`, current `2.0`; in
general, whenever parsing a line yields a record, the record's fields
reassemble the line as `<package> (<installed>) != <current>` with all three
groups nonempty (the groups of the greedy regex match, which takes the
longest possible package group and then the longest installed group);
conversely every line admitting such a decomposition yields a record, and
every line not matching the pattern is silently skipped, producing no
record. -/
theorem claim_cask_line_parse :
    caskRegexMatch (("foo (1.0) != 2.0").data) =
      some ((("foo").data, ("1.0").data, ("2.0").data)) ∧
    (∀ (line p i c : List Char), noNl line = true →
      caskRegexMatch line = some ((p, i, c)) →
      line = p ++ sepOpen ++ i ++ sepMid ++ c ∧ p ≠ [] ∧ i ≠ [] ∧ c ≠ []) ∧
    (∀ p i c : List Char, p ≠ [] → i ≠ [] → c ≠ [] → noNl p = true →
      noNl i = true → noNl c = true →
      (caskRegexMatch (p ++ sepOpen ++ i ++ sepMid ++ c)).isSome = true) ∧
    (∀ (line : String) (lines : List String), caskRegexMatch line.data = none →
      brew_cask_outdated (line :: lines) = brew_cask_outdated lines) := by
  refine ⟨by decide, ?_, caskRegexMatch_complete, ?_⟩
  · intro line p i c hnl hm
    obtain ⟨p', i', u, hline, hp', hi', hr, hne⟩ :=
      caskRegexMatch_sound line (p, i, c) hm
    simp only [Prod.mk.injEq] at hr
    obtain ⟨hpp, hii, hcc⟩ := hr
    have hu_all : ∀ x ∈ u, (x != newlineChar) = true := by
      intro x hx
      have hxline : x ∈ line := by
        rw [hline]
        simp [hx]
      exact List.all_eq_true.mp hnl x hxline
    have hu : u.takeWhile (fun ch => ch != newlineChar) = u :=
      takeWhile_eq_self_of_all _ u hu_all
    have hcu : c = u := by rw [hcc, hu]
    refine ⟨?_, ?_, ?_, ?_⟩
    · rw [hpp, hii, hcu, hline]
      simp [List.append_assoc]
    · rw [hpp]
      exact hp'
    · rw [hii]
      exact hi'
    · rw [hcu]
      rw [hu] at hne
      exact hne
  · intro line lines hm
    simp [brew_cask_outdated, List.filterMap_cons, hm]

/-- Witness for C4's amended theorem: completeness applied at a concrete
decomposition. -/
theorem claim_cask_line_parse_witness :
    (caskRegexMatch (("x").data ++ sepOpen ++ ("1").data ++ sepMid ++
      ("2").data)).isSome = true :=
  claim_cask_line_parse.2.2.1 ("x").data ("1").data ("2").data (by decide)
    (by decide) (by decide) (by decide) (by decide) (by decide)

end HomebrewNotify
